import Mathlib

/-!
Verification of the shiroclient-sdk-go core: a shallow embedding of the
protocol/response state machine (package `shiroclient`, file
`shiroclient/shiroclient.go`), the functional-options configuration model,
the health-check URL construction (`internal/rpc/shiroclient.go`), and the
batch polling driver (package `batch`).

Go values are embedded as follows: `[]byte` as `List UInt8`, decoded JSON
`interface{}` values as the inductive `Jv` (numbers as `ℚ`, standing for the
`float64` produced by `encoding/json`), Go maps as association lists with
replace-on-insert semantics, fallible functions as `Except GoError _`, and a
Go runtime panic (out-of-range slice index) as the distinguished
`GoError.outOfRange` outcome.
-/

namespace Shiroclient

/-- Byte strings, modelling Go `[]byte`. -/
abbrev Bytes := List UInt8

/-- Decoded JSON values, modelling the `interface{}` shapes produced by Go
`encoding/json.Unmarshal`: `nil`, `bool`, `float64`, `string`,
`[]interface{}` and `map[string]interface{}` (as an association list). -/
inductive Jv where
  | null : Jv
  | bool (b : Bool) : Jv
  | num (q : ℚ) : Jv
  | str (s : String) : Jv
  | arr (xs : List Jv) : Jv
  | obj (fields : List (String × Jv)) : Jv


/-- Lookup in an association list (first match), modelling Go map indexing
`m[k]` together with its `ok` flag. -/
def alLookup {β : Type} (m : List (String × β)) (k : String) : Option β :=
  match m with
  | [] => none
  | (k2, v) :: rest => if k2 = k then some v else alLookup rest k

/-- Map update `m[k] = v`: replaces the binding when the key is present,
appends it otherwise. -/
def alInsert {β : Type} (m : List (String × β)) (k : String) (v : β) :
    List (String × β) :=
  match m with
  | [] => [(k, v)]
  | (k2, v2) :: rest =>
    if k2 = k then (k, v) :: rest else (k2, v2) :: alInsert rest k v

/-- Go `int(f)` conversion of a `float64`: truncation toward zero. -/
def goInt (q : ℚ) : Int := q.num.tdiv q.den

/-- Lower-case hex digit for a value below 16. -/
def hexDigit (n : Nat) : Char :=
  if n < 10 then Char.ofNat (48 + n) else Char.ofNat (87 + n)

/-- Model of Go `hex.EncodeToString`: two lower-case hex digits per byte. -/
def hexEncodeToString (b : Bytes) : String :=
  String.mk (b.foldr (fun by2 acc =>
    hexDigit (by2.toNat / 16) :: hexDigit (by2.toNat % 16) :: acc) [])

/-- UTF-8 bytes of a string, modelling the Go conversion `[]byte(s)`. -/
def strBytes (s : String) : Bytes :=
  s.toUTF8.data.toList

/-- JSON string escaping used by the serializer model: quotes, backslashes
and control characters are escaped; everything else is passed through. -/
def jsonEscapeChar (c : Char) : String :=
  if c = '"' then "\\\""
  else if c = '\\' then "\\\\"
  else if c = '\n' then "\\n"
  else if c = '\r' then "\\r"
  else if c = '\t' then "\\t"
  else String.singleton c

/-- Serialized JSON string literal. -/
def jsonStr (s : String) : String :=
  "\"" ++ String.join (s.data.map jsonEscapeChar) ++ "\""

/-- Serialized JSON number.  Values decoded from JSON are `float64`; the
model renders integral values in decimal and non-integral values as a
fraction (the exact rendering is irrelevant to every stated theorem, which
only ever compare two applications of the same serializer). -/
def jsonNum (q : ℚ) : String :=
  if q.den = 1 then toString q.num else toString q.num ++ "/" ++ toString q.den

mutual
/-- Model of Go `encoding/json.Marshal` on decoded JSON values.  Object
fields are emitted in stored order (Go sorts map keys; the order is
irrelevant to every stated theorem, which only ever compare two
applications of this same function). -/
def jsonMarshal : Jv → String
  | .null => "null"
  | .bool true => "true"
  | .bool false => "false"
  | .num q => jsonNum q
  | .str s => jsonStr s
  | .arr xs => "[" ++ jsonMarshalArr xs ++ "]"
  | .obj fs => "\x7b" ++ jsonMarshalObj fs ++ "\x7d"

/-- Comma-separated serialization of a JSON array body. -/
def jsonMarshalArr : List Jv → String
  | [] => ""
  | [x] => jsonMarshal x
  | x :: xs => jsonMarshal x ++ "," ++ jsonMarshalArr xs

/-- Comma-separated serialization of a JSON object body. -/
def jsonMarshalObj : List (String × Jv) → String
  | [] => ""
  | [(k, v)] => jsonStr k ++ ":" ++ jsonMarshal v
  | (k, v) :: fs => jsonStr k ++ ":" ++ jsonMarshal v ++ "," ++ jsonMarshalObj fs
end

/-- Error outcomes of client operations.  `sc` is the `*scError` type of the
source (message, numeric code, optional wrapped error); `wrap` is an error
produced by `fmt.Errorf` with a `%w` verb; `plain` is `errors.New`;
`outOfRange` stands for a Go runtime panic caused by an out-of-range slice
index (an abnormal termination, not a returned error). -/
inductive GoError where
  | sc (message : String) (code : Int) (wrapped : Option GoError) : GoError
  | wrap (pre : String) (inner : GoError) : GoError
  | plain (message : String) : GoError
  | outOfRange (message : String) : GoError


/-- The distinguished timeout sub-code `ErrorCodeShiroClientTimeout`. -/
def errorCodeShiroClientTimeout : Int := 1

/-- Model of `errors.As(err, &se)` for the target type `*scError`: walk the
`Unwrap` chain and return the first `*scError` (its message and code). -/
def asScError : GoError → Option (String × Int)
  | .sc m c _ => some (m, c)
  | .wrap _ inner => asScError inner
  | .plain _ => none
  | .outOfRange _ => none

/-- `IsTimeoutError` from `internal/rpc/shiroclient.go`: true when the error
chain contains a `*scError` whose code is the timeout sub-code. -/
def IsTimeoutError (e : GoError) : Bool :=
  match asScError e with
  | some (_, c) => c = errorCodeShiroClientTimeout
  | none => false

/-- Partially decoded RPC response (`rpcres` in the source): the error level
already converted to `int`, the four opaque sub-fields, and the commit
transaction id. -/
structure Rpcres where
  errorLevel : Int
  result : Jv
  code : Jv
  message : Jv
  data : Jv
  txID : String


/-- The code extraction `code, _ := r.code.(float64)` followed by
`int(code)`: zero when the code field is not numeric. -/
def goCode (code : Jv) : Int :=
  match code with
  | .num q => goInt q
  | _ => 0

/-- `(*rpcres).getShiroClientError`: an `*scError` carrying the response's
message and code; when the message is not a string the code is dropped and
a fixed message is used (the code then defaults to zero). -/
def Rpcres.getShiroClientError (r : Rpcres) : GoError :=
  match r.message with
  | .str m => .sc m (goCode r.code) none
  | _ => .sc "shiroclient error with no message" 0 none

/-- Wrapping of an error by a chain of `fmt.Errorf("...: %w", err)` calls,
outermost wrapper first. -/
def wrapChain (ws : List String) (e : GoError) : GoError :=
  ws.foldr (fun p acc => .wrap p acc) e

/-- Extraction of `$commit_tx_id` from the top-level response object:
`txID, _ := resCurly["$commit_tx_id"].(string)` — empty when the field is
absent or not a string. -/
def commitTxID (fs : List (String × Jv)) : String :=
  match alLookup fs "$commit_tx_id" with
  | some (.str s) => s
  | _ => ""

/-- Decode part of `reqres`: given the JSON value unmarshalled from the HTTP
response body, validate the JSON-RPC 2.0 envelope and the five mandatory
sub-fields of `result`, producing an `rpcres` or a field-specific decode
error (source lines `shiroclient/shiroclient.go` 608-680). -/
def reqresDecode (resArb : Jv) : Except GoError Rpcres :=
  match resArb with
  | .obj fs =>
    match alLookup fs "jsonrpc" with
    | none => .error (.plain "ShiroClient.reqres expected a jsonrpc field")
    | some jsonrpcArb =>
      match jsonrpcArb with
      | .str jsonrpc =>
        if jsonrpc = "2.0" then
          match alLookup fs "result" with
          | none => .error (.plain "ShiroClient.reqres expected a result field")
          | some resultArb =>
            match resultArb with
            | .obj resultCurly =>
              match alLookup resultCurly "error_level" with
              | none => .error (.plain "ShiroClient.reqres expected an error_level field")
              | some errorLevelArb =>
                match errorLevelArb with
                | .num errorLevel =>
                  match alLookup resultCurly "result" with
                  | none => .error (.plain "ShiroClient.reqres expected a result field")
                  | some result =>
                    match alLookup resultCurly "code" with
                    | none => .error (.plain "ShiroClient.reqres expected a code field")
                    | some code =>
                      match alLookup resultCurly "message" with
                      | none => .error (.plain "ShiroClient.reqres expected a message field")
                      | some message =>
                        match alLookup resultCurly "data" with
                        | none => .error (.plain "ShiroClient.reqres expected a data field")
                        | some data =>
                          .ok { errorLevel := goInt errorLevel, result := result,
                                code := code, message := message, data := data,
                                txID := commitTxID fs }
                | _ => .error (.plain "ShiroClient.reqres expected a numeric error_level field")
            | _ => .error (.plain "ShiroClient.reqres expected an object result field")
        else .error (.plain "ShiroClient.reqres expected jsonrpc version 2.0")
      | _ => .error (.plain "ShiroClient.reqres expected a string jsonrpc field")
  | _ => .error (.plain "ShiroClient.reqres expected an object")

/-- The application-level error view exposed by a failure response
(`failureResponse` implements the `Error` interface: `Code`, `Message`,
`DataJSON`). -/
structure ShiroErr where
  code : Int
  message : String
  dataJSON : String

/-- `ShiroResponse` values as constructed by the client: the
`successResponse` variant (marshalled result payload and transaction id)
and the `failureResponse` variant (code, message, marshalled data). -/
inductive ShiroResponse where
  | success (result : String) (txID : String) : ShiroResponse
  | failure (code : Int) (message : String) (data : String) : ShiroResponse

/-- `Error()`: `nil` for a success response, the failure's own error view
for a failure response. -/
def ShiroResponse.error : ShiroResponse → Option ShiroErr
  | .success _ _ => none
  | .failure c m d => some { code := c, message := m, dataJSON := d }

/-- `ResultJSON()`: a copy of the stored result payload for a success
response, `nil` (the empty byte string) for a failure response. -/
def ShiroResponse.resultJSON : ShiroResponse → String
  | .success r _ => r
  | .failure _ _ _ => ""

/-- `TransactionID()`: the stored transaction id for a success response,
the empty string for a failure response. -/
def ShiroResponse.transactionID : ShiroResponse → String
  | .success _ t => t
  | .failure _ _ _ => ""

/-- `UnmarshalTo(dst)`: a success response unmarshals its payload into the
caller's destination (`parseInto` stands for `json.Unmarshal` into the
particular `dst`); a failure response returns an error for every
destination. -/
def ShiroResponse.unmarshalTo (parseInto : String → Except GoError Unit) :
    ShiroResponse → Except GoError Unit
  | .success r _ => parseInto r
  | .failure _ _ _ =>
    .error (.plain "can't unmarshal the result if the RPC call failed")

/-- Go except-bind: propagate the error, otherwise continue. -/
def ebind {α β : Type} : Except GoError α → (α → Except GoError β) →
    Except GoError β
  | .error e, _ => .error e
  | .ok a, f => f a

/-- Response classification of `Call` (source lines 879-914): level 0
produces a success response carrying the re-marshalled `result` and the
commit transaction id; level 1 returns the shiroclient error; level 2
checks the numeric code and string message and produces a failure
response carrying the re-marshalled `data`; other levels are protocol
violations. -/
def callSwitch (r : Rpcres) : Except GoError ShiroResponse :=
  if r.errorLevel = 0 then
    .ok (.success (jsonMarshal r.result) r.txID)
  else if r.errorLevel = 1 then
    .error r.getShiroClientError
  else if r.errorLevel = 2 then
    match r.code with
    | .num code =>
      match r.message with
      | .str message => .ok (.failure (goInt code) message (jsonMarshal r.data))
      | _ => .error (.plain "ShiroClient.Call expected a string message field")
    | _ => .error (.plain "ShiroClient.Call expected a numeric code field")
  else
    .error (.plain "ShiroClient.Call unexpected error level")

/-- Response handling of `Call`: decode the wire response, then classify.
The request-building half of `Call` is modelled separately by
`callParams`; the HTTP exchange between the two is the external
collaborator. -/
def rpcCall (resArb : Jv) : Except GoError ShiroResponse :=
  ebind (reqresDecode resArb) callSwitch

/-- Response handling of `Seed` (source lines 739-748): level 0 succeeds,
level 1 returns the shiroclient error, anything else is a protocol
violation. -/
def rpcSeed (resArb : Jv) : Except GoError Unit :=
  ebind (reqresDecode resArb) (fun r =>
    if r.errorLevel = 0 then .ok ()
    else if r.errorLevel = 1 then .error r.getShiroClientError
    else .error (.plain "ShiroClient.Seed unexpected error level"))

/-- Response handling of `Init` (source lines 808-817). -/
def rpcInit (resArb : Jv) : Except GoError Unit :=
  ebind (reqresDecode resArb) (fun r =>
    if r.errorLevel = 0 then .ok ()
    else if r.errorLevel = 1 then .error r.getShiroClientError
    else .error (.plain "ShiroClient.Init unexpected error level"))

/-- Response handling of `ShiroPhylum` (source lines 770-784): the result
field must be a string. -/
def rpcShiroPhylum (resArb : Jv) : Except GoError String :=
  ebind (reqresDecode resArb) (fun r =>
    if r.errorLevel = 0 then
      match r.result with
      | .str s => .ok s
      | _ => .error (.plain "ShiroClient.ShiroPhylum expected string result field")
    else if r.errorLevel = 1 then .error r.getShiroClientError
    else .error (.plain "ShiroClient.ShiroPhylum unexpected error level"))

/-- Response handling of `QueryInfo` (source lines 936-950): the result
field must be numeric; it is converted to an unsigned integer (modelled by
the same truncation). -/
def rpcQueryInfo (resArb : Jv) : Except GoError Int :=
  ebind (reqresDecode resArb) (fun r =>
    if r.errorLevel = 0 then
      match r.result with
      | .num height => .ok (goInt height)
      | _ => .error (.plain "ShiroClient.QueryInfo expected a numeric result field")
    else if r.errorLevel = 1 then .error r.getShiroClientError
    else .error (.plain "ShiroClient.QueryInfo unexpected error level"))

/-- Value of a standard base64 alphabet character. -/
def b64Val (c : Char) : Option Nat :=
  if 'A' ≤ c && c ≤ 'Z' then some (c.toNat - 65)
  else if 'a' ≤ c && c ≤ 'z' then some (c.toNat - 71)
  else if '0' ≤ c && c ≤ '9' then some (c.toNat + 4)
  else if c = '+' then some 62
  else if c = '/' then some 63
  else none

/-- Model of Go `base64.StdEncoding.DecodeString` on a character list:
four-character groups, with `=` padding allowed only in the final group. -/
def base64DecodeQuads : List Char → Option Bytes
  | [] => some []
  | c1 :: c2 :: c3 :: c4 :: rest =>
    (match b64Val c1, b64Val c2 with
     | some v1, some v2 =>
       if c3 = '=' then
         (if c4 = '=' && rest.isEmpty then
            some [UInt8.ofNat (v1 * 4 + v2 / 16)]
          else none)
       else
         (match b64Val c3 with
          | some v3 =>
            if c4 = '=' then
              (if rest.isEmpty then
                 some [UInt8.ofNat (v1 * 4 + v2 / 16),
                       UInt8.ofNat (v2 % 16 * 16 + v3 / 4)]
               else none)
            else
              (match b64Val c4 with
               | some v4 =>
                 (base64DecodeQuads rest).map (fun bs =>
                   UInt8.ofNat (v1 * 4 + v2 / 16) ::
                   UInt8.ofNat (v2 % 16 * 16 + v3 / 4) ::
                   UInt8.ofNat (v3 % 4 * 64 + v4) :: bs)
               | none => none)
          | none => none)
     | _, _ => none)
  | _ => none

/-- Model of Go `base64.StdEncoding.DecodeString`. -/
def base64Decode (s : String) : Option Bytes :=
  base64DecodeQuads s.data

/-- Summary information about one transaction (`transaction` in the
source): id, reason, decoded event bytes and originating chaincode id. -/
structure Transaction where
  id : String
  reason : String
  event : Bytes
  ccID : String

/-- Summary information about one block (`block` in the source). -/
structure Block where
  hash : String
  transactions : List Transaction

/-- Decode an array of JSON values into strings, failing with the given
member error at the first non-string element. -/
def decodeStrings (xs : List Jv) (errMsg : String) :
    Except GoError (List String) :=
  match xs with
  | [] => .ok []
  | .str s :: rest =>
    ebind (decodeStrings rest errMsg) (fun out => .ok (s :: out))
  | _ :: _ => .error (.plain errMsg)

/-- Decode the `transaction_events` array: every element must be a base64
string; each event is base64-decoded. -/
def decodeEvents (xs : List Jv) : Except GoError (List Bytes) :=
  match xs with
  | [] => .ok []
  | .str s :: rest =>
    (match base64Decode s with
     | some bs => ebind (decodeEvents rest) (fun out => .ok (bs :: out))
     | none =>
       .error (.plain "ShiroClient.QueryBlock expected a base64 string transaction_event member"))
  | _ :: _ =>
    .error (.plain "ShiroClient.QueryBlock expected a string transaction_event member")

/-- The build loop of `QueryBlock` (source lines 1093-1095): walk the
transaction ids and reasons in step (their lengths have been checked
equal), indexing the events and chaincode-id arrays at position `i`.  An
access past the end of either array is a Go runtime panic, modelled as the
`outOfRange` outcome. -/
def zipTransactions (txids reasons : List String) (events : List Bytes)
    (ccids : List String) (i : Nat) : Except GoError (List Transaction) :=
  match txids, reasons with
  | [], _ => .ok []
  | t :: ts, r :: rs =>
    (match events[i]?, ccids[i]? with
     | some ev, some cc =>
       ebind (zipTransactions ts rs events ccids (i + 1)) (fun rest =>
         .ok ({ id := t, reason := r, event := ev, ccID := cc } :: rest))
     | _, _ => .error (.outOfRange "runtime error: index out of range"))
  | _ :: _, [] => .error (.outOfRange "runtime error: index out of range")

/-- The transaction-building step of `QueryBlock` (source lines
1087-1095): only the id and reason arrays are compared for length before
zipping all four arrays positionally. -/
def buildTransactions (txids reasons : List String) (events : List Bytes)
    (ccids : List String) : Except GoError (List Transaction) :=
  if txids.length ≠ reasons.length then
    .error (.plain "ShiroClient.QueryBlock: mismatched parallel arrays")
  else zipTransactions txids reasons events ccids 0

/-- The level-0 result decoding of `QueryBlock` (source lines 973-1097):
presence/type checks of the five fields, base64 decoding of events, and
the positional zip into transactions. -/
def queryBlockResult (resultArb : Jv) : Except GoError Block :=
  match resultArb with
  | .obj res =>
    (match alLookup res "block_hash" with
     | none => .error (.plain "ShiroClient.QueryBlock expected a block_hash field")
     | some blockHashArb =>
       match blockHashArb with
       | .str blockHash =>
         (match alLookup res "transaction_ids" with
          | none => .error (.plain "ShiroClient.QueryBlock expected a transaction_ids field")
          | some txidsArb =>
            match txidsArb with
            | .arr txids =>
              ebind (decodeStrings txids
                  "ShiroClient.QueryBlock expected a string transaction_id member")
                (fun txidsOut =>
                match alLookup res "transaction_reasons" with
                | none => .error (.plain "ShiroClient.QueryBlock expected a transaction_reasons field")
                | some reasonsArb =>
                  match reasonsArb with
                  | .arr reasons =>
                    ebind (decodeStrings reasons
                        "ShiroClient.QueryBlock expected a string transaction_reason member")
                      (fun reasonsOut =>
                      match alLookup res "transaction_events" with
                      | none => .error (.plain "ShiroClient.QueryBlock expected a transaction_events field")
                      | some eventsArb =>
                        match eventsArb with
                        | .arr events =>
                          ebind (decodeEvents events) (fun eventsOut =>
                            match alLookup res "chaincode_ids" with
                            | none => .error (.plain "ShiroClient.QueryBlock expected a chaincode_ids field")
                            | some ccidsArb =>
                              match ccidsArb with
                              | .arr ccids =>
                                ebind (decodeStrings ccids
                                    "ShiroClient.QueryBlock expected a string chaincode_id member")
                                  (fun ccidsOut =>
                                  ebind (buildTransactions txidsOut reasonsOut
                                      eventsOut ccidsOut) (fun transactions =>
                                    .ok { hash := blockHash,
                                          transactions := transactions }))
                              | _ => .error (.plain "ShiroClient.QueryBlock expected an array chaincode_ids field"))
                        | _ => .error (.plain "ShiroClient.QueryBlock expected an array transaction_events field"))
                  | _ => .error (.plain "ShiroClient.QueryBlock expected an array transaction_reasons field"))
            | _ => .error (.plain "ShiroClient.QueryBlock expected an array transaction_ids field"))
       | _ => .error (.plain "ShiroClient.QueryBlock expected a string block_hash field"))
  | _ => .error (.plain "ShiroClient.QueryBlock expected an object result field")

/-- Response handling of `QueryBlock` (source lines 967-1104). -/
def rpcQueryBlock (resArb : Jv) : Except GoError Block :=
  ebind (reqresDecode resArb) (fun r =>
    if r.errorLevel = 0 then queryBlockResult r.result
    else if r.errorLevel = 1 then .error r.getShiroClientError
    else .error (.plain "ShiroClient.QueryBlock unexpected error level"))

/-- The `requestOptions` accumulator of `shiroclient/shiroclient.go`.
Opaque pointers (logger, response target, context) are modelled as
tokens; the timestamp generator is a function from the context token to
its string output; the proxy URL pointer is its rendered string. -/
structure RequestOptions where
  log : Option Nat
  logFields : List (String × Jv)
  headers : List (String × String)
  endpoint : String
  id : String
  authToken : String
  params : Option Jv
  transient : List (String × Bytes)
  target : Option Nat
  timestampGenerator : Option (Nat → String)
  mspFilter : List String
  minEndorsers : Int
  creator : String
  ctx : Option Nat
  dependentTxID : String
  disableWritePolling : Bool
  ccFetchURLDowngrade : Bool
  ccFetchURLProxy : Option String

/-- The configuration functions of the source (`Config` values produced by
the `With*` constructors), deep-embedded so that lists of configurations
can be quantified over. -/
inductive Config where
  | withContext (ctx : Nat) : Config
  | withLog (log : Nat) : Config
  | withLogField (key : String) (value : Jv) : Config
  | withLogrusFields (fields : List (String × Jv)) : Config
  | withHeader (key : String) (value : String) : Config
  | withEndpoint (endpoint : String) : Config
  | withID (id : String) : Config
  | withParams (params : Jv) : Config
  | withTransientData (key : String) (val : Bytes) : Config
  | withTransientDataMap (data : List (String × Bytes)) : Config
  | withResponse (target : Nat) : Config
  | withAuthToken (token : String) : Config
  | withTimestampGenerator (g : Nat → String) : Config
  | withMSPFilter (mspFilter : List String) : Config
  | withMinEndorsers (minEndorsers : Int) : Config
  | withCreator (creator : String) : Config
  | withDependentTxID (txID : String) : Config
  | withDisableWritePolling (disable : Bool) : Config
  | withCCFetchURLDowngrade (downgrade : Bool) : Config
  | withCCFetchURLProxy (proxy : Option String) : Config

/-- The mutation performed by each configuration function (source lines
56-214).  Map-valued options insert into the corresponding map; all other
options overwrite their field. -/
def applyConfig : Config → RequestOptions → RequestOptions
  | .withContext c, r => { r with ctx := some c }
  | .withLog l, r => { r with log := some l }
  | .withLogField k v, r => { r with logFields := alInsert r.logFields k v }
  | .withLogrusFields fs, r =>
    { r with logFields := fs.foldl (fun m kv => alInsert m kv.1 kv.2) r.logFields }
  | .withHeader k v, r => { r with headers := alInsert r.headers k v }
  | .withEndpoint e, r => { r with endpoint := e }
  | .withID i, r => { r with id := i }
  | .withParams p, r => { r with params := some p }
  | .withTransientData k v, r => { r with transient := alInsert r.transient k v }
  | .withTransientDataMap d, r =>
    { r with transient := d.foldl (fun m kv => alInsert m kv.1 kv.2) r.transient }
  | .withResponse t, r => { r with target := some t }
  | .withAuthToken t, r => { r with authToken := t }
  | .withTimestampGenerator g, r => { r with timestampGenerator := some g }
  | .withMSPFilter f, r => { r with mspFilter := f }
  | .withMinEndorsers n, r => { r with minEndorsers := n }
  | .withCreator c, r => { r with creator := c }
  | .withDependentTxID t, r => { r with dependentTxID := t }
  | .withDisableWritePolling b, r => { r with disableWritePolling := b }
  | .withCCFetchURLDowngrade b, r => { r with ccFetchURLDowngrade := b }
  | .withCCFetchURLProxy p, r => { r with ccFetchURLProxy := p }

/-- The fresh default `requestOptions` built at the top of `applyConfigs`
(source lines 690-705): a freshly generated random UUID as the request id
(passed in as a parameter, randomness being external), empty maps, and
zero values everywhere else. -/
def defaultRequestOptions (freshID : String) : RequestOptions :=
  { log := none, logFields := [], headers := [], endpoint := "",
    id := freshID, authToken := "", params := none, transient := [],
    target := none, timestampGenerator := none, mspFilter := [],
    minEndorsers := 0, creator := "", ctx := none, dependentTxID := "",
    disableWritePolling := false, ccFetchURLDowngrade := false,
    ccFetchURLProxy := none }

/-- `applyConfigs` (source lines 684-716): build the fresh default options,
then apply every base config, then every per-call config, in list order. -/
def applyConfigs (baseConfig configs : List Config) (freshID : String) :
    RequestOptions :=
  let opt := defaultRequestOptions freshID
  let opt := baseConfig.foldl (fun o c => applyConfig c o) opt
  configs.foldl (fun o c => applyConfig c o) opt

/-- The `transientJSON` map built by `Call` (source lines 827-835): each
transient entry hex-encoded, then — when a timestamp generator is
configured — the `timestamp_override` entry set to the hex encoding of the
generator's output on the call's context. -/
def callTransientJSON (opt : RequestOptions) (ctx : Nat) :
    List (String × Jv) :=
  let transientJSON := opt.transient.map
    (fun kv => (kv.1, Jv.str (hexEncodeToString kv.2)))
  match opt.timestampGenerator with
  | none => transientJSON
  | some g =>
    alInsert transientJSON "timestamp_override"
      (.str (hexEncodeToString (strBytes (g ctx))))

/-- The `params` object built by `Call` (source lines 837-872): method,
params and transient always present; optional fields only when
non-default; the fetch-URL fields always present. -/
def callParams (opt : RequestOptions) (ctx : Nat) (method : String) :
    List (String × Jv) :=
  let params : List (String × Jv) :=
    [("method", .str method),
     ("params", opt.params.getD .null),
     ("transient", .obj (callTransientJSON opt ctx))]
  let params := if opt.dependentTxID ≠ "" then
    alInsert params "dependent_txid" (.str opt.dependentTxID) else params
  let params := if opt.disableWritePolling then
    alInsert params "disable_write_polling" (.bool opt.disableWritePolling) else params
  let params := alInsert params "cc_fetchurl_downgrade" (.bool opt.ccFetchURLDowngrade)
  let params := alInsert params "cc_fetchurl_proxy"
    (.str (match opt.ccFetchURLProxy with | some u => u | none => ""))
  let params := if opt.mspFilter.length > 0 then
    alInsert params "msp_filter" (.arr (opt.mspFilter.map Jv.str)) else params
  let params := if opt.minEndorsers > 0 then
    alInsert params "min_endorsers" (.num opt.minEndorsers) else params
  if opt.creator ≠ "" then
    alInsert params "creator_msp_id" (.str opt.creator) else params

/-- A parsed URL, modelling the fields of `net/url.URL` used by the
health-check construction: scheme, host, path and raw (unparsed) query. -/
structure GoURL where
  scheme : String
  host : String
  path : String
  rawQuery : String

/-- Split the authority from the path at the first slash. -/
def splitHostPath (cs : List Char) : List Char × List Char :=
  match cs with
  | [] => ([], [])
  | '/' :: rest => ([], '/' :: rest)
  | c :: rest =>
    let hp := splitHostPath rest
    (c :: hp.1, hp.2)

/-- Split a character list at the first `://`, returning the scheme part
and the remainder. -/
def splitScheme : List Char → Option (List Char × List Char)
  | [] => none
  | ':' :: '/' :: '/' :: rest => some ([], rest)
  | c :: rest => (splitScheme rest).map (fun p => (c :: p.1, p.2))

/-- Split a character list at the first `?`, returning the part before it
and the raw query after it. -/
def splitQuery : List Char → List Char × List Char
  | [] => ([], [])
  | '?' :: rest => ([], rest)
  | c :: rest =>
    let p := splitQuery rest
    (c :: p.1, p.2)

/-- Model of `net/url.Parse` for absolute URLs of the shape
`scheme://host[/path][?query]` (no userinfo or fragment, which the
health-check endpoints do not use). -/
def urlParse (s : String) : Option GoURL :=
  match splitScheme s.data with
  | none => none
  | some sr =>
    if sr.1.isEmpty then none
    else
      let hpq := splitQuery sr.2
      let hp := splitHostPath hpq.1
      some { scheme := String.mk sr.1, host := String.mk hp.1,
             path := String.mk hp.2, rawQuery := String.mk hpq.2 }

/-- Hex digit check for percent-escape validation. -/
def isHexChar (c : Char) : Bool :=
  c.isDigit || ('a' ≤ c && c ≤ 'f') || ('A' ≤ c && c ≤ 'F')

/-- Every `%` is followed by two hex digits. -/
def validPctChars : List Char → Bool
  | [] => true
  | '%' :: a :: b :: rest => isHexChar a && isHexChar b && validPctChars rest
  | '%' :: _ => false
  | _ :: rest => validPctChars rest

/-- Model of the error-free check of `url.ParseQuery`: no semicolon
separators and every percent escape well formed. -/
def parseQueryOk (q : String) : Bool :=
  !q.data.contains ';' && validPctChars q.data

/-- Upper-case hex digit (Go percent-escapes use upper case). -/
def upperHexDigit (n : Nat) : Char :=
  if n < 10 then Char.ofNat (48 + n) else Char.ofNat (55 + n)

/-- Unreserved characters of Go `url.QueryEscape`. -/
def isUnreservedQuery (c : Char) : Bool :=
  c.isAlphanum || c = '-' || c = '_' || c = '.' || c = '~'

/-- Model of Go `url.QueryEscape`: operates on the UTF-8 bytes, keeps
unreserved bytes, turns a space into `+`, percent-escapes the rest. -/
def queryEscape (s : String) : String :=
  String.join ((strBytes s).map (fun b =>
    let c := Char.ofNat b.toNat
    if isUnreservedQuery c then String.singleton c
    else if c = ' ' then "+"
    else String.mk ['%', upperHexDigit (b.toNat / 16), upperHexDigit (b.toNat % 16)]))

/-- Ampersand-joined concatenation of query parameters. -/
def joinAmp : List String → String
  | [] => ""
  | [s] => s
  | s :: rest => s ++ "&" ++ joinAmp rest

/-- Encoding of the single-key value set `url.Values{"service": services}`
(`Values.Encode` sorts keys; with one key it lists that key's values in
order, each query-escaped). -/
def urlValuesEncodeService (services : List String) : String :=
  joinAmp (services.map (fun s => "service=" ++ queryEscape s))

/-- `urlQueryAppend` (source `internal/rpc/shiroclient.go` lines 348-359):
encode the new parameters and append them after `&`, leaving any existing
raw query untouched. -/
def urlQueryAppend (u : GoURL) (services : List String) : GoURL :=
  let paramStr := urlValuesEncodeService services
  if u.rawQuery = "" then { u with rawQuery := paramStr }
  else { u with rawQuery := u.rawQuery ++ "&" ++ paramStr }

/-- Whether a path begins with a slash. -/
def pathRooted (s : String) : Bool :=
  match s.data with
  | '/' :: _ => true
  | _ => false

/-- Whether a path ends with a slash. -/
def pathSlashEnd (s : String) : Bool :=
  match s.data.getLast? with
  | some '/' => true
  | _ => false

/-- Model of `path.Join` on the already-clean paths produced by URL
parsing. -/
def pathJoin (a b : String) : String :=
  if a = "" then b
  else if pathSlashEnd a then a ++ b
  else a ++ "/" ++ b

/-- Model of `(*url.URL).String` for the URL shapes above: a rootless path
is separated from a non-empty host by a slash; a non-empty raw query is
appended after `?`. -/
def urlString (u : GoURL) : String :=
  u.scheme ++ "://" ++ u.host ++
  (if u.path ≠ "" && !pathRooted u.path then "/" else "") ++ u.path ++
  (if u.rawQuery ≠ "" then "?" ++ u.rawQuery else "")

/-- `gatewayHealthCheckURL` (source `internal/rpc/shiroclient.go` lines
329-343): parse the endpoint, join `health_check` onto its path, validate
the existing query, and append one `service=` parameter per requested
service. -/
def gatewayHealthCheckURL (endpoint : String) (services : List String) :
    Except GoError String :=
  match urlParse endpoint with
  | none => .error (.plain "invalid gateway url")
  | some u0 =>
    let u := { u0 with path := pathJoin u0.path "health_check" }
    if parseQueryOk u.rawQuery then
      .ok (urlString (if services.length > 0 then urlQueryAppend u services else u))
    else .error (.plain "invalid gateway query parameters")

/-- A polled batch request (`RequestEnvelope` in package `batch`). -/
structure RequestEnvelope where
  batchID : String
  requestID : String
  message : Bytes

/-- The blank-fields check of `Ticker.Tick` (source `batch.go` line 163):
an envelope is processed only when all three fields are non-empty. -/
def envValid (e : RequestEnvelope) : Bool :=
  !(e.batchID = "" || e.requestID = "" || e.message.length = 0)

/-- The envelopes for which `Ticker.Tick` dispatches the user callback, in
dispatch order: the loop over the decoded envelope list dispatches each
valid envelope and returns from `Tick` at the first envelope with a blank
field, abandoning that envelope and everything after it. -/
def tickDispatch : List RequestEnvelope → List RequestEnvelope
  | [] => []
  | e :: rest => if envValid e then e :: tickDispatch rest else []

/-- Progress of one dispatched callback task of `Ticker.Tick`: the
callback is running; the callback has returned (its outcome wrapped into a
`ResponseEnvelope`); the `batch_process_response` call has completed; the
deferred wait-group `Done` has executed. -/
inductive TaskPhase where
  | working : TaskPhase
  | callbackDone : TaskPhase
  | reported : TaskPhase
  | finished : TaskPhase
  deriving DecidableEq

/-- Interleaving state of one `Ticker.Tick` invocation: the envelopes the
main loop has not yet examined, the phase of each spawned task, whether
the main loop has finished (normally or by the blank-field abort), the
wait-group counter, and whether `Tick` has returned (the deferred
`wg.Wait` has been passed). -/
structure TickState where
  pending : List RequestEnvelope
  tasks : List TaskPhase
  mainDone : Bool
  wg : Nat
  returned : Bool

/-- Initial state of a `Tick` round over a decoded envelope list. -/
def tickInit (envs : List RequestEnvelope) : TickState :=
  { pending := envs, tasks := [], mainDone := false, wg := 0, returned := false }

/-- Interleaving semantics of `Ticker.Tick` (source lines 139-238): the
main loop spawns one task per valid envelope after `wg.Add(1)`, aborts the
loop at a blank-field envelope, and the deferred `wg.Wait` lets `Tick`
return only when the wait-group counter is zero; each task runs its
callback, performs the `batch_process_response` call, and then executes
its deferred `wg.Done`. -/
inductive TickStep : TickState → TickState → Prop
  | spawn (s : TickState) (e : RequestEnvelope) (rest : List RequestEnvelope) :
      s.pending = e :: rest → envValid e = true → s.mainDone = false →
      TickStep s { s with pending := rest, tasks := s.tasks ++ [.working],
                          wg := s.wg + 1 }
  | abortBlank (s : TickState) (e : RequestEnvelope) (rest : List RequestEnvelope) :
      s.pending = e :: rest → envValid e = false → s.mainDone = false →
      TickStep s { s with pending := rest, mainDone := true }
  | mainFinish (s : TickState) :
      s.pending = [] → s.mainDone = false →
      TickStep s { s with mainDone := true }
  | callback (s : TickState) (i : Nat) :
      s.tasks.get? i = some .working →
      TickStep s { s with tasks := s.tasks.set i .callbackDone }
  | report (s : TickState) (i : Nat) :
      s.tasks.get? i = some .callbackDone →
      TickStep s { s with tasks := s.tasks.set i .reported }
  | wgDone (s : TickState) (i : Nat) :
      s.tasks.get? i = some .reported →
      TickStep s { s with tasks := s.tasks.set i .finished, wg := s.wg - 1 }
  | ret (s : TickState) :
      s.mainDone = true → s.wg = 0 → s.returned = false →
      TickStep s { s with returned := true }

/-- States reachable by a `Tick` round on the given envelope list. -/
inductive TickReach (envs : List RequestEnvelope) : TickState → Prop
  | init : TickReach envs (tickInit envs)
  | step {s s2 : TickState} : TickReach envs s → TickStep s s2 → TickReach envs s2

section Theorems

/-- Wrapping with `fmt.Errorf` does not change the `*scError` found by
`errors.As`. -/
lemma asScError_wrapChain (ws : List String) (e : GoError) :
    asScError (wrapChain ws e) = asScError e := by
  induction ws with
  | nil => rfl
  | cons w t ih =>
    simpa [wrapChain, asScError] using ih

/-- C1: for every wire response that decodes with error level 2, a numeric
code field and a string message field, `Call` returns a Failure-variant
`ShiroResponse` as a value with no Go error, and that response's `Error()`
view carries the converted wire code, the wire message, and the JSON
re-serialization of the wire data field; the failure is not surfaced as a
returned error. -/
theorem call_failure_is_value (resArb : Jv) (r : Rpcres) (qc : ℚ) (m : String)
    (hdec : reqresDecode resArb = .ok r) (hlevel : r.errorLevel = 2)
    (hcode : r.code = .num qc) (hmsg : r.message = .str m) :
    rpcCall resArb = .ok (.failure (goInt qc) m (jsonMarshal r.data))
    ∧ (ShiroResponse.failure (goInt qc) m (jsonMarshal r.data)).error =
        some { code := goInt qc, message := m, dataJSON := jsonMarshal r.data } := by
  refine ⟨?_, rfl⟩
  simp [rpcCall, ebind, hdec, callSwitch, hlevel, hcode, hmsg]

/-- Concrete wire response with error level 2, code 7, message `bad` and
null data. -/
def wireFailureEx : Jv :=
  .obj [("jsonrpc", .str "2.0"),
        ("result", .obj [("error_level", .num 2), ("result", .null),
                         ("code", .num 7), ("message", .str "bad"),
                         ("data", .null)])]

/-- Witness for C1 at a concrete level-2 response. -/
theorem call_failure_is_value_witness :
    rpcCall wireFailureEx = .ok (.failure (goInt 7) "bad" (jsonMarshal Jv.null)) := by
  have hdec : reqresDecode wireFailureEx =
      .ok { errorLevel := 2, result := .null, code := .num 7,
            message := .str "bad", data := .null, txID := "" } := by rfl
  exact (call_failure_is_value wireFailureEx _ 7 "bad" hdec rfl rfl rfl).1

/-- Concrete wire response with error level 1 and the timeout code, but a
non-string message field. -/
def wireTimeoutNonStringMsg : Jv :=
  .obj [("jsonrpc", .str "2.0"),
        ("result", .obj [("error_level", .num 1), ("result", .null),
                         ("code", .num 1), ("message", .num 7),
                         ("data", .null)])]

/-- C5 counterexample: a response with error level 1 whose numeric code
equals the timeout sub-code but whose message field is not a string
produces an error on which `IsTimeoutError` is false — the code is
discarded together with the malformed message. -/
theorem isTimeoutError_cex :
    rpcCall wireTimeoutNonStringMsg =
      .error (.sc "shiroclient error with no message" 0 none)
    ∧ IsTimeoutError (.sc "shiroclient error with no message" 0 none) = false :=
  ⟨rfl, rfl⟩

/-- C5 amended: for every error produced from a response with error level 1
whose message field is a string, `IsTimeoutError` — through any chain of
`fmt.Errorf` wrapping — returns true exactly when the converted numeric
code equals the timeout sub-code; and it returns false on every plain
error not originating from the client. -/
theorem isTimeoutError_amended (resArb : Jv) (r : Rpcres) (wraps : List String)
    (m : String) (hdec : reqresDecode resArb = .ok r) (hlvl : r.errorLevel = 1)
    (hmsg : r.message = .str m) :
    rpcCall resArb = .error r.getShiroClientError
    ∧ IsTimeoutError (wrapChain wraps r.getShiroClientError) =
        decide (goCode r.code = errorCodeShiroClientTimeout)
    ∧ (∀ msg, IsTimeoutError (wrapChain wraps (GoError.plain msg)) = false) := by
  refine ⟨?_, ?_, ?_⟩
  · simp [rpcCall, ebind, hdec, callSwitch, hlvl]
  · have h2 : r.getShiroClientError = .sc m (goCode r.code) none := by
      simp [Rpcres.getShiroClientError, hmsg]
    rw [h2]
    simp [IsTimeoutError, asScError_wrapChain, asScError]
  · intro msg
    simp [IsTimeoutError, asScError_wrapChain, asScError]

/-- The decoded form of `wireTimeoutEx`. -/
def rTimeoutEx : Rpcres :=
  { errorLevel := 1, result := .null, code := .num 1,
    message := .str "timeout", data := .null, txID := "" }

/-- Concrete wire response with error level 1, the timeout code and a
string message. -/
def wireTimeoutEx : Jv :=
  .obj [("jsonrpc", .str "2.0"),
        ("result", .obj [("error_level", .num 1), ("result", .null),
                         ("code", .num 1), ("message", .str "timeout"),
                         ("data", .null)])]

/-- Witness for the amended C5: a wrapped timeout error is recognized. -/
theorem isTimeoutError_amended_witness :
    IsTimeoutError (wrapChain ["wrap call error: "]
      rTimeoutEx.getShiroClientError) = true := by
  have h := isTimeoutError_amended wireTimeoutEx rTimeoutEx
    ["wrap call error: "] "timeout" rfl rfl rfl
  rw [h.2.1]
  rfl

/-- The transaction id assembled by the decode step is exactly the
`$commit_tx_id` extraction from the top-level response object. -/
lemma reqresDecode_obj_txID (fs : List (String × Jv)) (r : Rpcres)
    (h : reqresDecode (.obj fs) = .ok r) : r.txID = commitTxID fs := by
  simp only [reqresDecode] at h
  repeat' split at h
  all_goals first
    | (cases h; rfl)
    | simp at h

/-- C10: every `ShiroResponse` produced by `Call` is exactly one of two
variants with mutually consistent accessors: a success response has a nil
`Error()`, its stored marshalled result as `ResultJSON()` and the wire
`$commit_tx_id` (empty when absent) as `TransactionID()`; a failure
response has a non-nil `Error()`, nil `ResultJSON()`, an empty
`TransactionID()` and an `UnmarshalTo` that errors for every
destination. -/
theorem response_variant_invariant (resArb : Jv) (resp : ShiroResponse)
    (h : rpcCall resArb = .ok resp) :
    (resp.error = none
      ∧ (∃ r, reqresDecode resArb = .ok r
          ∧ resp.resultJSON = jsonMarshal r.result
          ∧ resp.transactionID = r.txID)
      ∧ (∀ fs, resArb = .obj fs → resp.transactionID = commitTxID fs))
    ∨ ((∃ err, resp.error = some err)
      ∧ resp.resultJSON = ""
      ∧ resp.transactionID = ""
      ∧ (∀ parseInto, resp.unmarshalTo parseInto =
          .error (.plain "can't unmarshal the result if the RPC call failed"))) := by
  unfold rpcCall at h
  cases hdec : reqresDecode resArb with
  | error e => rw [hdec] at h; simp only [ebind] at h; cases h
  | ok r =>
    rw [hdec] at h
    simp only [ebind] at h
    unfold callSwitch at h
    by_cases h0 : r.errorLevel = 0
    · rw [if_pos h0] at h
      cases h
      left
      refine ⟨rfl, ⟨r, rfl, rfl, rfl⟩, ?_⟩
      intro fs hfs
      subst hfs
      exact reqresDecode_obj_txID fs r hdec
    · rw [if_neg h0] at h
      by_cases h1 : r.errorLevel = 1
      · rw [if_pos h1] at h; cases h
      · rw [if_neg h1] at h
        by_cases h2 : r.errorLevel = 2
        · rw [if_pos h2] at h
          split at h
          · split at h
            · cases h
              right
              exact ⟨⟨_, rfl⟩, rfl, rfl, fun p => rfl⟩
            · cases h
          · cases h
        · rw [if_neg h2] at h; cases h

/-- Witness for C10 at a concrete level-2 response. -/
theorem response_variant_invariant_witness :
    ((ShiroResponse.failure 7 "bad" "null").error = none
      ∧ (∃ r, reqresDecode wireFailureEx = .ok r
          ∧ (ShiroResponse.failure 7 "bad" "null").resultJSON = jsonMarshal r.result
          ∧ (ShiroResponse.failure 7 "bad" "null").transactionID = r.txID)
      ∧ (∀ fs, wireFailureEx = .obj fs →
          (ShiroResponse.failure 7 "bad" "null").transactionID = commitTxID fs))
    ∨ ((∃ err, (ShiroResponse.failure 7 "bad" "null").error = some err)
      ∧ (ShiroResponse.failure 7 "bad" "null").resultJSON = ""
      ∧ (ShiroResponse.failure 7 "bad" "null").transactionID = ""
      ∧ (∀ parseInto, (ShiroResponse.failure 7 "bad" "null").unmarshalTo parseInto =
          .error (.plain "can't unmarshal the result if the RPC call failed"))) :=
  response_variant_invariant wireFailureEx (.failure 7 "bad" "null") rfl

/-- Field-presence check on a decoded JSON object. -/
def hasField (fs : List (String × Jv)) (k : String) : Bool :=
  (alLookup fs k).isSome

/-- The malformation premise of C7, read off the claim: the top-level
`jsonrpc` field is absent or not the string "2.0", or the `result` object
is missing one of its five mandatory sub-fields. -/
def wireMalformed (resArb : Jv) : Bool :=
  match resArb with
  | .obj fs =>
    (match alLookup fs "jsonrpc" with
     | some (.str s) => decide (s ≠ "2.0")
     | some _ => true
     | none => true)
    ||
    (match alLookup fs "result" with
     | some (.obj rfs) =>
       !(hasField rfs "error_level" && hasField rfs "result" &&
         hasField rfs "code" && hasField rfs "message" && hasField rfs "data")
     | _ => false)
  | _ => false

/-- The field-specific decode error messages of `reqres`. -/
def reqresDecodeErrors : List String :=
  ["ShiroClient.reqres expected an object",
   "ShiroClient.reqres expected a jsonrpc field",
   "ShiroClient.reqres expected a string jsonrpc field",
   "ShiroClient.reqres expected jsonrpc version 2.0",
   "ShiroClient.reqres expected a result field",
   "ShiroClient.reqres expected an object result field",
   "ShiroClient.reqres expected an error_level field",
   "ShiroClient.reqres expected a numeric error_level field",
   "ShiroClient.reqres expected a code field",
   "ShiroClient.reqres expected a message field",
   "ShiroClient.reqres expected a data field"]

/-- Every outcome of the decode step is either a decoded response or one
of the field-specific decode errors. -/
lemma reqresDecode_total (resArb : Jv) :
    (∃ r, reqresDecode resArb = .ok r)
    ∨ (∃ msg, reqresDecode resArb = .error (.plain msg)
        ∧ msg ∈ reqresDecodeErrors) := by
  unfold reqresDecode
  repeat' split
  all_goals first
    | exact Or.inl ⟨_, rfl⟩
    | exact Or.inr ⟨_, rfl, by simp [reqresDecodeErrors]⟩

/-- A malformed wire response never decodes successfully. -/
lemma wireMalformed_not_ok (resArb : Jv) (hmal : wireMalformed resArb = true)
    (r : Rpcres) : reqresDecode resArb ≠ .ok r := by
  intro hok
  unfold reqresDecode at hok
  repeat' split at hok
  all_goals try cases hok
  simp_all [wireMalformed, hasField]

/-- C7: for every wire response whose `jsonrpc` field is absent or not the
string "2.0", or whose `result` object is missing any of the five
mandatory sub-fields, every operation returns the same field-specific
decode error (one of the `reqres` messages) and never forwards the
response as a success or as an application-level failure. -/
theorem ops_decode_error (resArb : Jv) (hmal : wireMalformed resArb = true) :
    ∃ msg, reqresDecode resArb = .error (.plain msg)
      ∧ msg ∈ reqresDecodeErrors
      ∧ rpcSeed resArb = .error (.plain msg)
      ∧ rpcShiroPhylum resArb = .error (.plain msg)
      ∧ rpcInit resArb = .error (.plain msg)
      ∧ rpcCall resArb = .error (.plain msg)
      ∧ rpcQueryInfo resArb = .error (.plain msg)
      ∧ rpcQueryBlock resArb = .error (.plain msg) := by
  rcases reqresDecode_total resArb with ⟨r, hok⟩ | ⟨msg, herr, hmem⟩
  · exact absurd hok (wireMalformed_not_ok resArb hmal r)
  · refine ⟨msg, herr, hmem, ?_, ?_, ?_, ?_, ?_, ?_⟩ <;>
      simp [rpcSeed, rpcShiroPhylum, rpcInit, rpcCall, rpcQueryInfo,
            rpcQueryBlock, herr, ebind]

/-- Concrete wire response missing the `message` sub-field. -/
def wireMissingMessage : Jv :=
  .obj [("jsonrpc", .str "2.0"),
        ("result", .obj [("error_level", .num 0), ("result", .null),
                         ("code", .num 0), ("data", .null)])]

/-- Witness for C7 at a response missing its `message` sub-field. -/
theorem ops_decode_error_witness :
    wireMalformed wireMissingMessage = true
    ∧ ∃ msg, reqresDecode wireMissingMessage = .error (.plain msg)
      ∧ msg ∈ reqresDecodeErrors
      ∧ rpcSeed wireMissingMessage = .error (.plain msg)
      ∧ rpcShiroPhylum wireMissingMessage = .error (.plain msg)
      ∧ rpcInit wireMissingMessage = .error (.plain msg)
      ∧ rpcCall wireMissingMessage = .error (.plain msg)
      ∧ rpcQueryInfo wireMissingMessage = .error (.plain msg)
      ∧ rpcQueryBlock wireMissingMessage = .error (.plain msg) :=
  ⟨rfl, ops_decode_error wireMissingMessage rfl⟩

/-- The last value written to a field by a config list, where `wr` gives
the value a single config writes to the field (none when it leaves the
field alone).  Later configs take priority. -/
def lastWrite {α : Type} (wr : Config → Option α) : List Config → Option α
  | [] => none
  | c :: l => (lastWrite wr l).or (wr c)

/-- Folding a config list over any starting options yields, in a field
written constantly by each config (or left alone), the last written value,
defaulting to the starting value. -/
lemma foldl_lastWrite {α : Type} (proj : RequestOptions → α)
    (wr : Config → Option α)
    (hw : ∀ c o, proj (applyConfig c o) = (wr c).getD (proj o)) :
    ∀ (l : List Config) (o : RequestOptions),
      proj (l.foldl (fun o c => applyConfig c o) o) =
        (lastWrite wr l).getD (proj o) := by
  intro l
  induction l with
  | nil => intro o; rfl
  | cons c t ih =>
    intro o
    simp only [List.foldl_cons, lastWrite]
    rw [ih (applyConfig c o), hw]
    cases lastWrite wr t <;> cases hwr : wr c <;> simp [Option.or]

/-- The last write of a concatenation prefers the second list. -/
lemma lastWrite_append {α : Type} (wr : Config → Option α)
    (a b : List Config) :
    lastWrite wr (a ++ b) = (lastWrite wr b).or (lastWrite wr a) := by
  induction a with
  | nil => simp [lastWrite]
  | cons c t ih =>
    show (lastWrite wr (t ++ b)).or (wr c) =
      (lastWrite wr b).or ((lastWrite wr t).or (wr c))
    rw [ih]
    cases lastWrite wr b <;> cases lastWrite wr t <;> cases wr c <;> rfl

/-- C3: the options an operation uses equal the left-to-right fold of the
concatenated base and per-call config lists over the fresh default
options; in any single field (written constantly by each config that
touches it), the last config in that concatenated order that writes the
field determines its final value, and a per-call write always overrides
every base write. -/
theorem applyConfigs_fold_last_write {α : Type} (base per : List Config)
    (freshID : String) (proj : RequestOptions → α) (wr : Config → Option α)
    (hw : ∀ c o, proj (applyConfig c o) = (wr c).getD (proj o)) :
    applyConfigs base per freshID =
        (base ++ per).foldl (fun o c => applyConfig c o)
          (defaultRequestOptions freshID)
    ∧ proj (applyConfigs base per freshID) =
        (lastWrite wr (base ++ per)).getD
          (proj (defaultRequestOptions freshID))
    ∧ (∀ v, lastWrite wr per = some v →
        proj (applyConfigs base per freshID) = v) := by
  have hfold : applyConfigs base per freshID =
      (base ++ per).foldl (fun o c => applyConfig c o)
        (defaultRequestOptions freshID) := by
    unfold applyConfigs
    rw [List.foldl_append]
  refine ⟨hfold, ?_, ?_⟩
  · rw [hfold, foldl_lastWrite proj wr hw]
  · intro v hv
    rw [hfold, foldl_lastWrite proj wr hw, lastWrite_append, hv]
    rfl

/-- Witness for C3 on the endpoint field: with an endpoint set both in the
base configs and the per-call configs, the per-call value wins. -/
theorem applyConfigs_fold_last_write_witness :
    (applyConfigs [Config.withEndpoint "https://base"]
      [Config.withEndpoint "https://percall"] "id0").endpoint =
      "https://percall" := by
  have h := applyConfigs_fold_last_write [Config.withEndpoint "https://base"]
    [Config.withEndpoint "https://percall"] "id0" (fun o => o.endpoint)
    (fun c => match c with | .withEndpoint e => some e | _ => none)
    (by intro c o; cases c <;> rfl)
  exact h.2.2 "https://percall" rfl

/-- Lookup commutes with the hex-encoding map over the transient values. -/
lemma alLookup_transientMap (m : List (String × Bytes)) (k : String) :
    alLookup (m.map (fun kv => (kv.1, Jv.str (hexEncodeToString kv.2)))) k =
      (alLookup m k).map (fun v => Jv.str (hexEncodeToString v)) := by
  induction m with
  | nil => rfl
  | cons kv t ih =>
    obtain ⟨k2, v⟩ := kv
    simp only [List.map_cons, alLookup]
    split <;> simp [ih]

/-- Lookup after a map update: the updated key reads the new value, every
other key is unaffected. -/
lemma alLookup_alInsert {β : Type} (m : List (String × β)) (k k2 : String)
    (v : β) :
    alLookup (alInsert m k v) k2 = if k = k2 then some v else alLookup m k2 := by
  induction m with
  | nil => simp [alInsert, alLookup]
  | cons kv t ih =>
    obtain ⟨k3, v3⟩ := kv
    simp only [alInsert]
    by_cases h3 : k3 = k
    · subst h3
      by_cases hk2 : k3 = k2
      · subst hk2
        simp [alLookup]
      · simp [alLookup, hk2]
    · by_cases hk2 : k3 = k2
      · subst hk2
        have hne : ¬k = k3 := fun h => h3 h.symm
        simp [alLookup, ih, hne, h3]
      · simp [alLookup, ih, hk2, h3]

/-- C6: the wire `params.transient` object sends each transient key to the
hex encoding of its bytes, and — whenever a timestamp generator is
configured — the `timestamp_override` entry holds the hex encoding of the
generator's output, overwriting any user-supplied entry under that key;
the `params` object built by `Call` carries exactly this map under
`transient`. -/
theorem call_transient_hex (opt : RequestOptions) (ctx : Nat)
    (method : String) :
    (∀ g, opt.timestampGenerator = some g →
      alLookup (callTransientJSON opt ctx) "timestamp_override" =
        some (.str (hexEncodeToString (strBytes (g ctx)))))
    ∧ (∀ k, k ≠ "timestamp_override" →
        alLookup (callTransientJSON opt ctx) k =
          (alLookup opt.transient k).map (fun v => .str (hexEncodeToString v)))
    ∧ (opt.timestampGenerator = none →
        ∀ k, alLookup (callTransientJSON opt ctx) k =
          (alLookup opt.transient k).map (fun v => .str (hexEncodeToString v)))
    ∧ alLookup (callParams opt ctx method) "transient" =
        some (.obj (callTransientJSON opt ctx)) := by
  refine ⟨?_, ?_, ?_, ?_⟩
  · intro g hg
    simp [callTransientJSON, hg, alLookup_alInsert]
  · intro k hk
    cases htg : opt.timestampGenerator with
    | none => simp [callTransientJSON, htg, alLookup_transientMap]
    | some g =>
      have hne : ¬"timestamp_override" = k := fun h => hk h.symm
      simp [callTransientJSON, htg, alLookup_alInsert, hne,
            alLookup_transientMap]
  · intro htg k
    simp [callTransientJSON, htg, alLookup_transientMap]
  · simp only [callParams]
    repeat' split
    all_goals simp [alLookup_alInsert, alLookup]

/-- Concrete options with one transient entry and a timestamp generator. -/
def optTransientEx : RequestOptions :=
  { defaultRequestOptions "w" with
      transient := [("k1", [1])],
      timestampGenerator := some (fun _ => "T") }

/-- Witness for C6: the synthetic timestamp entry and the hex-encoded user
entry both appear in the built transient map. -/
theorem call_transient_hex_witness :
    alLookup (callTransientJSON optTransientEx 0) "timestamp_override" =
      some (.str (hexEncodeToString (strBytes "T")))
    ∧ alLookup (callTransientJSON optTransientEx 0) "k1" =
      some (.str (hexEncodeToString [1])) := by
  have h := call_transient_hex optTransientEx 0 "m"
  refine ⟨h.1 (fun _ => "T") rfl, ?_⟩
  have h2 := h.2.1 "k1" (by decide)
  rw [h2]
  rfl

/-- C8: the health-check URL for endpoint `https://localhost` and services
`fabric_peer`, `phylum` is exactly
`https://localhost/health_check?service=fabric_peer&service=phylum`; in
general the appended parameters carry one `service=` entry per requested
service in list order, the existing raw query is kept verbatim with the
new parameters appended after `&` rather than re-encoded, and for every
parseable endpoint with a valid query the constructed URL renders the
parsed endpoint with `health_check` joined onto its path and the service
parameters appended. -/
theorem health_check_url (u : GoURL) (services : List String)
    (endpoint : String) (u2 : GoURL) (hparse : urlParse endpoint = some u2)
    (hq : parseQueryOk u2.rawQuery = true) (hs : services.length > 0) :
    gatewayHealthCheckURL "https://localhost" ["fabric_peer", "phylum"] =
      .ok "https://localhost/health_check?service=fabric_peer&service=phylum"
    ∧ (urlQueryAppend u services).rawQuery =
        (if u.rawQuery = "" then
          joinAmp (services.map (fun s => "service=" ++ queryEscape s))
         else u.rawQuery ++ "&" ++
          joinAmp (services.map (fun s => "service=" ++ queryEscape s)))
    ∧ (urlQueryAppend u services).scheme = u.scheme
    ∧ (urlQueryAppend u services).host = u.host
    ∧ (urlQueryAppend u services).path = u.path
    ∧ gatewayHealthCheckURL endpoint services =
        .ok (urlString (urlQueryAppend
          { u2 with path := pathJoin u2.path "health_check" } services)) := by
  refine ⟨rfl, ?_, ?_, ?_, ?_, ?_⟩
  · simp only [urlQueryAppend, urlValuesEncodeService]
    split <;> simp_all
  · simp only [urlQueryAppend]
    split <;> rfl
  · simp only [urlQueryAppend]
    split <;> rfl
  · simp only [urlQueryAppend]
    split <;> rfl
  · simp [gatewayHealthCheckURL, hparse, hq, hs]

/-- Witness for C8 at an endpoint that already carries a query string. -/
theorem health_check_url_witness :
    gatewayHealthCheckURL "https://localhost/api?a=1&b=2" ["s1"] =
      .ok (urlString (urlQueryAppend
        { scheme := "https", host := "localhost",
          path := pathJoin "/api" "health_check", rawQuery := "a=1&b=2" }
        ["s1"]))
    ∧ gatewayHealthCheckURL "https://localhost/api?a=1&b=2" ["s1"] =
      .ok "https://localhost/api/health_check?a=1&b=2&service=s1" := by
  have h := health_check_url
    { scheme := "https", host := "localhost", path := "/api",
      rawQuery := "a=1&b=2" } ["s1"] "https://localhost/api?a=1&b=2"
    { scheme := "https", host := "localhost", path := "/api",
      rawQuery := "a=1&b=2" } rfl rfl (by decide)
  exact ⟨h.2.2.2.2.2, by rfl⟩

/-- C4: if the decoded envelope list has its first blank-field envelope at
position `i`, `Tick` dispatches the user callback exactly for the `i`
envelopes before it and aborts the round there: neither the malformed
envelope nor any envelope after it is dispatched. -/
theorem tick_abort_on_blank (envs : List RequestEnvelope) (i : Nat)
    (hbad : ∃ e, envs.get? i = some e ∧ envValid e = false)
    (hpre : ∀ j e, j < i → envs.get? j = some e → envValid e = true) :
    tickDispatch envs = envs.take i := by
  induction envs generalizing i with
  | nil =>
    obtain ⟨e, he, _⟩ := hbad
    simp [List.get?] at he
  | cons a t ih =>
    cases i with
    | zero =>
      obtain ⟨e, he, hv⟩ := hbad
      have he2 : a = e := by
        simpa [List.get?] using he
      subst he2
      simp [tickDispatch, hv]
    | succ n =>
      have hva : envValid a = true := hpre 0 a (Nat.succ_pos n) rfl
      simp only [tickDispatch, hva, if_true, List.take_succ_cons]
      congr 1
      refine ih n ?_ ?_
      · obtain ⟨e, he, hv⟩ := hbad
        exact ⟨e, by simpa [List.get?] using he, hv⟩
      · intro j e hj hje
        exact hpre (j + 1) e (Nat.succ_lt_succ hj)
          (by simpa [List.get?] using hje)

/-- A valid envelope. -/
def envOkEx : RequestEnvelope :=
  { batchID := "b", requestID := "r1", message := [1] }

/-- An envelope with a blank batch id. -/
def envBlankEx : RequestEnvelope :=
  { batchID := "", requestID := "r2", message := [1] }

/-- Witness for C4: a blank envelope in the middle of the round cuts the
dispatch list at its position. -/
theorem tick_abort_on_blank_witness :
    tickDispatch [envOkEx, envBlankEx, envOkEx] =
      [envOkEx, envBlankEx, envOkEx].take 1 := by
  refine tick_abort_on_blank [envOkEx, envBlankEx, envOkEx] 1
    ⟨envBlankEx, rfl, rfl⟩ ?_
  intro j e hj hje
  have hj0 : j = 0 := by omega
  subst hj0
  cases hje
  rfl

/-- A level-0 QueryBlock response passing every per-field check whose
`chaincode_ids` array is longer than the other three arrays. -/
def wireTruncEx : Jv :=
  .obj [("jsonrpc", .str "2.0"),
        ("result", .obj [("error_level", .num 0),
          ("result", .obj
            [("block_hash", .str "h"),
             ("transaction_ids", .arr [.str "t1"]),
             ("transaction_reasons", .arr [.str "r1"]),
             ("transaction_events", .arr [.str ""]),
             ("chaincode_ids", .arr [.str "c1", .str "c2"])]),
          ("code", .num 0), ("message", .str ""), ("data", .null)])]

/-- The Block actually returned for `wireTruncEx`. -/
def blockTruncEx : Block :=
  { hash := "h",
    transactions := [{ id := "t1", reason := "r1", event := [], ccID := "c1" }] }

/-- C2 counterexample: for a response in which two of the four parallel
arrays differ in length (`chaincode_ids` has two entries, the others one),
`QueryBlock` does not return the mismatched-parallel-arrays error: it
returns a Block, silently dropping the extra chaincode id. -/
theorem queryBlock_mismatch_cex :
    rpcQueryBlock wireTruncEx = .ok blockTruncEx
    ∧ rpcQueryBlock wireTruncEx ≠
        .error (.plain "ShiroClient.QueryBlock: mismatched parallel arrays") := by
  have okEq : rpcQueryBlock wireTruncEx = .ok blockTruncEx := rfl
  exact ⟨okEq, fun h => Except.noConfusion (okEq.symm.trans h)⟩

/-- The zip loop succeeds, producing one transaction per id, when the
events and chaincode arrays are long enough. -/
lemma zipTransactions_ok (events : List Bytes) (ccids : List String) :
    ∀ (txids reasons : List String) (i : Nat),
      txids.length = reasons.length →
      i + txids.length ≤ events.length →
      i + txids.length ≤ ccids.length →
      ∃ ts, zipTransactions txids reasons events ccids i = .ok ts
        ∧ ts.length = txids.length := by
  intro txids
  induction txids with
  | nil => exact fun reasons i _ _ _ => ⟨[], rfl, rfl⟩
  | cons t ts ih =>
    intro reasons i hlen he hc
    cases reasons with
    | nil => simp at hlen
    | cons r rs =>
      have hie : i < events.length := by simp at he; omega
      have hic : i < ccids.length := by simp at hc; omega
      have hev : events[i]? = some events[i] := List.getElem?_eq_getElem hie
      have hcc : ccids[i]? = some ccids[i] := List.getElem?_eq_getElem hic
      obtain ⟨ts2, hzip, hlen2⟩ := ih rs (i + 1)
        (by simpa using hlen) (by simp at he ⊢; omega)
        (by simp at hc ⊢; omega)
      refine ⟨{ id := t, reason := r, event := events[i],
                ccID := ccids[i] } :: ts2, ?_, ?_⟩
      · simp [zipTransactions, hev, hcc, hzip, ebind]
      · simp [hlen2]

/-- The zip loop hits an out-of-range index (a Go runtime panic) when the
events or chaincode arrays are too short. -/
lemma zipTransactions_oob (events : List Bytes) (ccids : List String) :
    ∀ (txids reasons : List String) (i : Nat),
      txids.length = reasons.length →
      i ≤ events.length → i ≤ ccids.length →
      (events.length < i + txids.length ∨ ccids.length < i + txids.length) →
      zipTransactions txids reasons events ccids i =
        .error (.outOfRange "runtime error: index out of range") := by
  intro txids
  induction txids with
  | nil =>
    intro reasons i _ hie hic hbad
    exfalso
    simp at hbad
    rcases hbad with h | h <;> omega
  | cons t ts ih =>
    intro reasons i hlen hie hic hbad
    cases reasons with
    | nil => simp at hlen
    | cons r rs =>
      by_cases hie2 : i < events.length
      · have hev : events[i]? = some events[i] := List.getElem?_eq_getElem hie2
        by_cases hic2 : i < ccids.length
        · have hcc : ccids[i]? = some ccids[i] := List.getElem?_eq_getElem hic2
          have hbad2 : events.length < i + 1 + ts.length
              ∨ ccids.length < i + 1 + ts.length := by
            simp at hbad
            rcases hbad with h | h
            · exact Or.inl (by omega)
            · exact Or.inr (by omega)
          have hz := ih rs (i + 1) (by simpa using hlen) (by omega) (by omega)
            hbad2
          simp [zipTransactions, hev, hcc, hz, ebind]
        · have hcc : ccids[i]? = none := List.getElem?_len_le (by omega)
          simp [zipTransactions, hev, hcc]
      · have hev : events[i]? = none := List.getElem?_len_le (by omega)
        simp [zipTransactions, hev]

/-- C2 amended: the mismatched-parallel-arrays decode error is produced
exactly for a `transaction_ids`/`transaction_reasons` length mismatch; a
mismatch involving only the events or chaincode-id arrays is not caught:
when both are at least as long as `transaction_ids`, the build loop
returns a Block zipped to `transaction_ids` length (silently dropping
extras), and when either is shorter it performs an out-of-range access (a
runtime panic), not a decode error. -/
theorem queryBlock_parallel_amended (txids reasons : List String)
    (events : List Bytes) (ccids : List String) :
    (txids.length ≠ reasons.length →
      buildTransactions txids reasons events ccids =
        .error (.plain "ShiroClient.QueryBlock: mismatched parallel arrays"))
    ∧ (txids.length = reasons.length →
        txids.length ≤ events.length → txids.length ≤ ccids.length →
        ∃ ts, buildTransactions txids reasons events ccids = .ok ts
          ∧ ts.length = txids.length)
    ∧ (txids.length = reasons.length →
        (events.length < txids.length ∨ ccids.length < txids.length) →
        buildTransactions txids reasons events ccids =
          .error (.outOfRange "runtime error: index out of range")) := by
  refine ⟨?_, ?_, ?_⟩
  · intro hne
    simp [buildTransactions, hne]
  · intro hlen he hc
    have h := zipTransactions_ok events ccids txids reasons 0 hlen
      (by omega) (by omega)
    simpa [buildTransactions, hlen] using h
  · intro hlen hbad
    have h := zipTransactions_oob events ccids txids reasons 0 hlen
      (by omega) (by omega) (by omega)
    simpa [buildTransactions, hlen] using h

/-- Witness for the amended C2: an id/reason mismatch is caught, and a
too-short events array panics instead. -/
theorem queryBlock_parallel_amended_witness :
    buildTransactions ["t1"] [] [] [] =
      .error (.plain "ShiroClient.QueryBlock: mismatched parallel arrays")
    ∧ buildTransactions ["t1"] ["r1"] [] ["c1"] =
      .error (.outOfRange "runtime error: index out of range") := by
  constructor
  · exact (queryBlock_parallel_amended ["t1"] [] [] []).1 (by decide)
  · exact (queryBlock_parallel_amended ["t1"] ["r1"] [] ["c1"]).2.2 rfl
      (by simp)

/-- Number of dispatched tasks whose deferred `wg.Done` has not yet run. -/
def tasksActive (ts : List TaskPhase) : Nat :=
  ts.countP (fun p => !decide (p = TaskPhase.finished))

/-- Overwriting one task phase shifts the active count by the activity
difference of the old and new phases. -/
lemma tasksActive_set (ts : List TaskPhase) :
    ∀ (i : Nat) (a b : TaskPhase), ts.get? i = some a →
      tasksActive (ts.set i b) + (if a = .finished then 0 else 1) =
        tasksActive ts + (if b = .finished then 0 else 1) := by
  induction ts with
  | nil => intro i a b h; simp [List.get?] at h
  | cons x t ih =>
    intro i a b h
    cases i with
    | zero =>
      have hx : x = a := by simpa [List.get?] using h
      subst hx
      simp only [List.set, tasksActive, List.countP_cons]
      by_cases hx2 : x = .finished <;> by_cases hb : b = .finished <;>
        simp [hx2, hb]
    | succ n =>
      have h2 := ih n a b (by simpa [List.get?] using h)
      simp only [List.set, tasksActive, List.countP_cons] at h2 ⊢
      by_cases hx2 : x = .finished <;> simp [hx2] <;> omega

/-- The invariant of a `Tick` round: the wait-group counter equals the
number of unfinished tasks, and a returned `Tick` implies a finished main
loop and a zero count. -/
def TickInv (s : TickState) : Prop :=
  s.wg = tasksActive s.tasks
  ∧ (s.returned = true → s.mainDone = true)
  ∧ (s.returned = true → tasksActive s.tasks = 0)

/-- The invariant holds initially. -/
lemma tickInv_init (envs : List RequestEnvelope) : TickInv (tickInit envs) := by
  refine ⟨rfl, ?_, ?_⟩ <;> intro h <;> cases h

/-- The invariant is preserved by every interleaving step. -/
lemma tickInv_step {s s2 : TickState} (hinv : TickInv s)
    (hstep : TickStep s s2) : TickInv s2 := by
  obtain ⟨h1, h2, h3⟩ := hinv
  cases hstep with
  | spawn e rest hp hv hm =>
    refine ⟨?_, ?_, ?_⟩
    · simp only [tasksActive, List.countP_append] at h1 ⊢
      simp [h1, tasksActive]
    · intro hr
      exact absurd (h2 hr) (by simp [hm])
    · intro hr
      exact absurd (h2 hr) (by simp [hm])
  | abortBlank e rest hp hv hm =>
    exact ⟨h1, fun _ => rfl, h3⟩
  | mainFinish hp hm =>
    exact ⟨h1, fun _ => rfl, h3⟩
  | callback i hi =>
    have hset := tasksActive_set s.tasks i .working .callbackDone hi
    simp at hset
    refine ⟨by simp only []; omega, h2, fun hr => ?_⟩
    have hz := h3 hr
    simp only [] at hz ⊢
    omega
  | report i hi =>
    have hset := tasksActive_set s.tasks i .callbackDone .reported hi
    simp at hset
    refine ⟨by simp only []; omega, h2, fun hr => ?_⟩
    have hz := h3 hr
    simp only [] at hz ⊢
    omega
  | wgDone i hi =>
    have hset := tasksActive_set s.tasks i .reported .finished hi
    simp at hset
    refine ⟨by simp only []; omega, h2, fun hr => ?_⟩
    have hz := h3 hr
    simp only [] at hz ⊢
    omega
  | ret hm hw hr =>
    refine ⟨h1, fun _ => hm, fun _ => ?_⟩
    show tasksActive s.tasks = 0
    omega

/-- The invariant holds in every reachable state. -/
lemma tickInv_reach (envs : List RequestEnvelope) {s : TickState}
    (h : TickReach envs s) : TickInv s := by
  induction h with
  | init => exact tickInv_init envs
  | step hr hs ih => exact tickInv_step ih hs

/-- C9: `Tick` is synchronous — in every reachable state of a poll round
in which `Tick` has returned (the deferred wait-group barrier has been
passed), every task it dispatched has run its callback, completed the
`batch_process_response` report and executed its deferred `Done`. -/
theorem tick_returns_after_all_reported (envs : List RequestEnvelope)
    (s : TickState) (hreach : TickReach envs s) (hret : s.returned = true) :
    ∀ p ∈ s.tasks, p = TaskPhase.finished := by
  have hz := (tickInv_reach envs hreach).2.2 hret
  intro p hp
  by_contra hne
  have hpos : 0 < tasksActive s.tasks := by
    simp only [tasksActive]
    exact List.countP_pos_iff.mpr ⟨p, hp, by simpa using hne⟩
  omega

/-- The final state of a complete round over one valid envelope. -/
def tickFinalEx : TickState :=
  { pending := [], tasks := [.finished], mainDone := true, wg := 0,
    returned := true }

/-- Witness for C9: a full interleaving over one envelope — spawn, main
finish, callback, report, wait-group done, return — reaches a returned
state whose only task is finished. -/
theorem tick_returns_after_all_reported_witness :
    TickReach [envOkEx] tickFinalEx
    ∧ (∀ p ∈ tickFinalEx.tasks, p = TaskPhase.finished) := by
  have h0 : TickReach [envOkEx] (tickInit [envOkEx]) := .init
  have h1 := TickReach.step h0 (TickStep.spawn _ envOkEx [] rfl (by decide) rfl)
  have h2 := TickReach.step h1 (TickStep.mainFinish _ rfl rfl)
  have h3 := TickReach.step h2 (TickStep.callback _ 0 rfl)
  have h4 := TickReach.step h3 (TickStep.report _ 0 rfl)
  have h5 := TickReach.step h4 (TickStep.wgDone _ 0 rfl)
  have h6 := TickReach.step h5 (TickStep.ret _ rfl rfl rfl)
  exact ⟨h6, tick_returns_after_all_reported [envOkEx] tickFinalEx h6 rfl⟩

end Theorems

end Shiroclient
